import Mathlib

/-!
Verification development for the portfolio single-page application
(`script.js`).  The JavaScript source is shallowly embedded: pure
functions become Lean functions on `String`/`List`/`Nat`/`Int`, the
modal controller's mutable variables become an explicit state record,
and the DOM-side lazy-loading logic becomes a step function on a list
of element models.  JavaScript regular-expression searches are embedded
as explicit leftmost-match scanners over character lists, with
alternatives tried in the source order of the regex alternation.
-/

namespace Portfolio

/-- Result record of `parseYearMonth`: the `{ year, month, sortKey }`
object built in `script.js`. -/
structure SortDate where
  year : Nat
  month : Nat
  sortKey : Nat
deriving DecidableEq, Repr

/-- ASCII digit test, the `\d` character class of the regexes in
`parseYearMonth` (JavaScript `\d` is exactly `0-9`). -/
def isDig (c : Char) : Bool :=
  decide (48 ≤ c.toNat ∧ c.toNat ≤ 57)

/-- Numeric value of an ASCII digit character. -/
def digitVal (c : Char) : Nat :=
  c.toNat - 48

/-- Whitespace test, the ASCII part of the `\s` character class used in
the "Month Year" regex (space, tab, LF, VT, FF, CR). -/
def isWS (c : Char) : Bool :=
  decide (c.toNat = 32 ∨ c.toNat = 9 ∨ c.toNat = 10 ∨ c.toNat = 11 ∨ c.toNat = 12 ∨ c.toNat = 13)

/-- ASCII lower-casing of one character, modelling
`String.prototype.toLowerCase` on the ASCII range used by the date
strings. -/
def lowerChar (c : Char) : Char :=
  if 65 ≤ c.toNat ∧ c.toNat ≤ 90 then Char.ofNat (c.toNat + 32) else c

/-- The character list of `dateString.toLowerCase()`. -/
def toLowerStr (s : String) : List Char :=
  s.data.map lowerChar

/-- Match a literal pattern at the head of the input; on success return
the remaining input (one regex alternative such as `august`). -/
def dropPat : List Char → List Char → Option (List Char)
  | [], cs => some cs
  | _ :: _, [] => none
  | p :: ps, c :: cs => if c = p then dropPat ps cs else none

/-- Consume the maximal run of whitespace characters. -/
def dropWS : List Char → List Char
  | [] => []
  | c :: cs => if isWS c then dropWS cs else c :: cs

/-- Match `\s+`: at least one whitespace character, greedily (the next
regex atom is `\d`, which is disjoint from `\s`, so greedy matching is
exact). -/
def wsPlus : List Char → Option (List Char)
  | [] => none
  | c :: cs => if isWS c then some (dropWS cs) else none

/-- Match `(\d{4})`: exactly four digit characters; returns their value
and the remaining input. -/
def digits4 : List Char → Option (Nat × List Char)
  | c1 :: c2 :: c3 :: c4 :: rest =>
    if isDig c1 && isDig c2 && isDig c3 && isDig c4 then
      some (digitVal c1 * 1000 + digitVal c2 * 100 + digitVal c3 * 10 + digitVal c4, rest)
    else none
  | _ => none

/-- Match `(\d{1,2})` greedily: two digits if available, else one. -/
def digits12 : List Char → Option Nat
  | [] => none
  | [c1] => if isDig c1 then some (digitVal c1) else none
  | c1 :: c2 :: _ =>
    if isDig c1 then
      if isDig c2 then some (digitVal c1 * 10 + digitVal c2) else some (digitVal c1)
    else none

/-- The month-name alternatives of the "Month Year" regex, in the
alternation order of the source, each paired with its value in the
`monthNames` lookup table (every alternative is a key of that table, so
the `|| 1` fallback of the source is never taken). -/
def monthAlts : List (List Char × Nat) :=
  [(("january").data, 1), (("february").data, 2), (("march").data, 3), (("april").data, 4),
   (("may").data, 5), (("june").data, 6), (("july").data, 7), (("august").data, 8),
   (("september").data, 9), (("october").data, 10), (("november").data, 11),
   (("december").data, 12),
   (("jan").data, 1), (("feb").data, 2), (("mar").data, 3), (("apr").data, 4),
   (("may").data, 5), (("jun").data, 6), (("jul").data, 7), (("aug").data, 8),
   (("sep").data, 9), (("oct").data, 10), (("nov").data, 11), (("dec").data, 12)]

/-- Try one month alternative at the current position: the name, then
`\s+`, then `(\d{4})`; returns `(month, year)`. -/
def altMatch (cs : List Char) (alt : List Char × Nat) : Option (Nat × Nat) :=
  match dropPat alt.1 cs with
  | none => none
  | some r1 =>
    match wsPlus r1 with
    | none => none
    | some r2 =>
      match digits4 r2 with
      | none => none
      | some (y, _) => some (alt.2, y)

/-- Try the alternatives in order at the current position (regex
alternation with backtracking). -/
def firstAlt (cs : List Char) : List (List Char × Nat) → Option (Nat × Nat)
  | [] => none
  | alt :: rest =>
    match altMatch cs alt with
    | some r => some r
    | none => firstAlt cs rest

/-- One attempt of the "Month Year" regex at the current position. -/
def tryMonthYearAt (cs : List Char) : Option (Nat × Nat) :=
  firstAlt cs monthAlts

/-- Leftmost match of the "Month Year" regex
`/(january|…|dec)\s+(\d{4})/i`; returns `(month, year)`. -/
def searchMonthYear : List Char → Option (Nat × Nat)
  | [] => none
  | c :: cs =>
    match tryMonthYearAt (c :: cs) with
    | some r => some r
    | none => searchMonthYear cs

/-- One attempt of the "Year-Month" regex at the current position:
`(\d{4})[-\/](\d{1,2})`; returns `(year, month)`. -/
def tryDashAt (cs : List Char) : Option (Nat × Nat) :=
  match digits4 cs with
  | none => none
  | some (y, rest) =>
    match rest with
    | [] => none
    | s :: rest2 =>
      if s = '-' ∨ s = '/' then
        match digits12 rest2 with
        | none => none
        | some m => some (y, m)
      else none

/-- Leftmost match of the "Year-Month" regex `/(\d{4})[-\/](\d{1,2})/`. -/
def searchDash : List Char → Option (Nat × Nat)
  | [] => none
  | c :: cs =>
    match tryDashAt (c :: cs) with
    | some r => some r
    | none => searchDash cs

/-- Leftmost match of the bare-year regex `/(\d{4})/`. -/
def searchYear : List Char → Option Nat
  | [] => none
  | c :: cs =>
    match digits4 (c :: cs) with
    | some (y, _) => some y
    | none => searchYear cs

/-- The date parser `parseYearMonth` of `script.js`: default year 2000
and month 1; an empty (falsy) or literal `"Unknown Date"` string short
circuits to sort key 0; otherwise the lower-cased string is tried
against the "Month Year" regex, then the "Year-Month" regex, then the
bare-year regex; the bare-year branch returns sort key `year * 100`,
and the final fallback returns sort key 0. -/
def parseYearMonth (dateString : String) : SortDate :=
  if dateString = ("") ∨ dateString = ("Unknown Date") then
    ⟨2000, 1, 0⟩
  else
    match searchMonthYear (toLowerStr dateString) with
    | some (m, y) => ⟨y, m, y * 100 + m⟩
    | none =>
      match searchDash (toLowerStr dateString) with
      | some (y, m) => ⟨y, m, y * 100 + m⟩
      | none =>
        match searchYear (toLowerStr dateString) with
        | some y => ⟨y, 1, y * 100⟩
        | none => ⟨2000, 1, 0⟩

/-- A media item of a project, with the fields the script reads
(`type`, `thumbnail`, `embed`). -/
structure MediaItem where
  «type» : String
  thumbnail : String
  embed : String
deriving DecidableEq, Repr

/-- A related link of a project (`{ url, text }`). -/
structure ProjectLink where
  url : String
  text : String
deriving DecidableEq, Repr

/-- A raw project object from the fetched `projects.json` array.  Each
field is `Option`-valued: `none` models a missing or falsy JSON field,
which the `||` defaults of `loadProjects` replace. -/
structure RawProject where
  id : Option Nat
  title : Option String
  category : Option String
  «type» : Option String
  date : Option String
  tools : Option (List String)
  skills : Option (List String)
  description : Option String
  links : Option (List ProjectLink)
  media : Option (List MediaItem)
deriving DecidableEq, Repr

/-- A normalized project, as built by the `data.projects.map` step of
`loadProjects`. -/
structure Project where
  id : Nat
  title : String
  category : String
  «type» : String
  date : String
  sortDate : SortDate
  tools : List String
  skills : List String
  description : String
  links : List ProjectLink
  media : List MediaItem
deriving DecidableEq, Repr

/-- Normalization of one raw project at a given array index, following
the object literal of `loadProjects` field by field.  Note
`sortDate := parseYearMonth(project.date)` uses the raw date (a missing
date behaves like the empty string and takes the parser's falsy
guard). -/
def normalizeProject (index : Nat) (project : RawProject) : Project :=
  { id := project.id.getD (index + 1),
    title := project.title.getD ("Untitled Project"),
    category := project.category.getD ("uncategorized"),
    «type» := project.«type».getD ("Other"),
    date := project.date.getD ("Unknown Date"),
    sortDate := parseYearMonth (project.date.getD ("")),
    tools := project.tools.getD [],
    skills := project.skills.getD [],
    description := project.description.getD ("No description available."),
    links := project.links.getD [],
    media := project.media.getD [] }

/-- `data.projects.map((project, index) => ...)`, with the running
index made explicit. -/
def normalizeFrom (index : Nat) : List RawProject → List Project
  | [] => []
  | p :: ps => normalizeProject index p :: normalizeFrom (index + 1) ps

/-- The full normalization pass of `loadProjects`. -/
def normalizeProjects (data : List RawProject) : List Project :=
  normalizeFrom 0 data

/-- The order used by the `projects.sort` comparator of `loadProjects`:
`a` may come before `b` when the comparator returns a non-positive
number, i.e. `b.sortDate.year - a.sortDate.year` when the years differ
and `b.sortDate.month - a.sortDate.month` otherwise. -/
def dateGE (a b : Project) : Prop :=
  b.sortDate.year < a.sortDate.year ∨
    (b.sortDate.year = a.sortDate.year ∧ b.sortDate.month ≤ a.sortDate.month)

instance instDecDateGE : DecidableRel dateGE := fun a b => by
  unfold dateGE
  exact inferInstance

instance instTotalDateGE : IsTotal Project dateGE :=
  ⟨fun a b => by unfold dateGE; omega⟩

instance instTransDateGE : IsTrans Project dateGE :=
  ⟨fun a b c hab hbc => by unfold dateGE at *; omega⟩

/-- The `projects.sort((a, b) => ...)` step of `loadProjects`: a stable
sort producing a list ordered by the comparator (modelled by insertion
sort, which is stable like `Array.prototype.sort` and yields a list
sorted with respect to `dateGE`). -/
def sortProjects (l : List Project) : List Project :=
  List.insertionSort dateGE l

/-- The pure core of a successful `loadProjects` run: normalize the
fetched array, then sort it newest first. -/
def loadProjectsPure (data : List RawProject) : List Project :=
  sortProjects (normalizeProjects data)

/-- The pure core of `filterProjects`: starting from the full list,
apply the category equality filter unless the category is `"all"`,
then the type equality filter unless the type is `"all"`. -/
def filterProjects (projects : List Project) (currentCategory currentType : String) :
    List Project :=
  let filtered := projects
  let filtered :=
    if currentCategory ≠ ("all") then
      List.filter (fun p => p.category == currentCategory) filtered
    else filtered
  let filtered :=
    if currentType ≠ ("all") then
      List.filter (fun p => p.«type» == currentType) filtered
    else filtered
  filtered

/-- The modal controller's mutable state: `currentProject` and
`currentMediaIndex`. -/
structure ViewState where
  currentProject : Option Project
  currentMediaIndex : Nat
deriving DecidableEq, Repr

/-- The initial state: no project open, media index 0. -/
def initState : ViewState :=
  { currentProject := none, currentMediaIndex := 0 }

/-- `openProjectModal(project)`: sets the current project and resets
the media index to 0 (the DOM work is not modelled). -/
def openProjectModal (project : Project) (_s : ViewState) : ViewState :=
  { currentProject := some project, currentMediaIndex := 0 }

/-- `nextMedia()`: increments the index when a project is open and the
index is below `media.length - 1` (in JavaScript the comparison is on
integers, so an empty media list makes the guard false; truncated `Nat`
subtraction gives the same guard values). -/
def nextMedia (s : ViewState) : ViewState :=
  match s.currentProject with
  | some project =>
    if s.currentMediaIndex < project.media.length - 1 then
      { s with currentMediaIndex := s.currentMediaIndex + 1 }
    else s
  | none => s

/-- `prevMedia()`: decrements the index when it is positive (the source
does not test `currentProject` here). -/
def prevMedia (s : ViewState) : ViewState :=
  if 0 < s.currentMediaIndex then
    { s with currentMediaIndex := s.currentMediaIndex - 1 }
  else s

/-- `closeModal()`: clears the current project and resets the index. -/
def closeModal (_s : ViewState) : ViewState :=
  { currentProject := none, currentMediaIndex := 0 }

/-- A `getBoundingClientRect()` result. -/
structure Rect where
  top : Int
  left : Int
  bottom : Int
  right : Int
deriving DecidableEq, Repr

/-- `isInViewport(element)` from `script.js`: the rectangle must lie
entirely inside the viewport (`top ≥ 0`, `left ≥ 0`, `bottom ≤ height`,
`right ≤ width`). -/
def isInViewport (vw vh : Int) (r : Rect) : Bool :=
  decide (0 ≤ r.top ∧ 0 ≤ r.left ∧ r.bottom ≤ vh ∧ r.right ≤ vw)

/-- A lazily loaded element: an `img.lazy-image` or a
placeholder `div` still carrying `data-src`, or its activated form (an
image with `src` populated, or a constructed iframe). -/
inductive LazyElem where
  | lazyImage (dataSrc : String) (rect : Rect)
  | image (src : String) (rect : Rect)
  | lazyFrame (dataSrc : String) (rect : Rect)
  | frame (src : String) (rect : Rect)
deriving DecidableEq, Repr

/-- Whether an element has been activated (its `src` populated or an
iframe constructed in its place). -/
def isActivated : LazyElem → Bool
  | .image _ _ => true
  | .frame _ _ => true
  | _ => false

/-- `loadImage(img)`: populate `src` from `data-src` and drop the
`data-src` attribute and `lazy-image` class; a falsy (empty) `data-src`
returns early. -/
def loadImage : LazyElem → LazyElem
  | .lazyImage ds r => if ds = ("") then .lazyImage ds r else .image ds r
  | e => e

/-- `loadIframe(placeholder)`: build an iframe from `data-src` and
replace the placeholder node with it; a falsy `data-src` returns
early. -/
def loadIframe : LazyElem → LazyElem
  | .lazyFrame ds r => if ds = ("") then .lazyFrame ds r else .frame ds r
  | e => e

/-- The per-element work of `lazyLoadHandler` (and of
`initLazyLoading`, which runs the same viewport test on render):
activate a still-lazy element when its rectangle passes
`isInViewport`. -/
def lazyLoadStep (vw vh : Int) (e : LazyElem) : LazyElem :=
  match e with
  | .lazyImage ds r =>
    if isInViewport vw vh r then loadImage (.lazyImage ds r) else .lazyImage ds r
  | .lazyFrame ds r =>
    if isInViewport vw vh r then loadIframe (.lazyFrame ds r) else .lazyFrame ds r
  | e => e

/-- One run of `lazyLoadHandler` over the rendered elements. -/
def lazyLoadHandler (vw vh : Int) (es : List LazyElem) : List LazyElem :=
  es.map (lazyLoadStep vw vh)

/-- Stated from the spec's words for comparison with `isInViewport`:
the element's bounding box and the viewport box `[0, vw] × [0, vh]`
have a non-empty intersection. -/
def rectIntersectsViewport (vw vh : Int) (r : Rect) : Prop :=
  r.left ≤ vw ∧ 0 ≤ r.right ∧ r.top ≤ vh ∧ 0 ≤ r.bottom

/-- Stated from the spec's words for comparison with `parseYearMonth`:
try the "Month Year" name match, then the "Year-Month" numeric match,
then the bare-year match, and fall back to a zero sort key with default
year 2000 when none of the three matches. -/
def parseYearMonthSpec (s : String) : SortDate :=
  match searchMonthYear (toLowerStr s) with
  | some (m, y) => ⟨y, m, y * 100 + m⟩
  | none =>
    match searchDash (toLowerStr s) with
    | some (y, m) => ⟨y, m, y * 100 + m⟩
    | none =>
      match searchYear (toLowerStr s) with
      | some y => ⟨y, 1, y * 100⟩
      | none => ⟨2000, 1, 0⟩

/-- The invariant exactly as the claim states it, with the interval
read over the integers: an open project's media index lies in
`[0, media.length - 1]`. -/
def MediaIdxInterval (s : ViewState) : Prop :=
  ∀ p, s.currentProject = some p →
    0 ≤ (s.currentMediaIndex : Int) ∧
      (s.currentMediaIndex : Int) ≤ (p.media.length : Int) - 1

/-- The invariant the code actually maintains: when the open project
has media, the index is at most `media.length - 1`; when its media list
is empty, the index is 0. -/
def MediaIdxInv (s : ViewState) : Prop :=
  ∀ p, s.currentProject = some p →
    (p.media.length = 0 → s.currentMediaIndex = 0) ∧
      (0 < p.media.length → s.currentMediaIndex ≤ p.media.length - 1)

/-- A concrete project whose media list is empty. -/
def emptyMediaProject : Project :=
  { id := 1, title := ("Untitled Project"), category := ("uncategorized"),
    «type» := ("Other"), date := ("Unknown Date"), sortDate := ⟨2000, 1, 0⟩,
    tools := [], skills := [], description := ("No description available."),
    links := [], media := [] }

/-- A raw project dated December 1999. -/
def rawOld : RawProject :=
  { id := some 1, title := some ("Old"), category := none, «type» := none,
    date := some ("1999-12"), tools := none, skills := none,
    description := none, links := none, media := none }

/-- A raw project with an unknown date (parsed year 2000, sort key 0). -/
def rawUnknown : RawProject :=
  { id := some 2, title := some ("Mystery"), category := none, «type» := none,
    date := some ("Unknown Date"), tools := none, skills := none,
    description := none, links := none, media := none }

/-- A raw project with every field missing or falsy. -/
def rawAllNone : RawProject :=
  { id := none, title := none, category := none, «type» := none,
    date := none, tools := none, skills := none,
    description := none, links := none, media := none }

/-- A lazy image that pokes one pixel row above the viewport: its box
intersects the viewport without being contained in it. -/
def offscreenElem : LazyElem :=
  .lazyImage ("pic.png") ⟨-1, 0, 10, 10⟩

/-- The code point of the first character of a pattern (0 for the empty
pattern). -/
def headToNat : List Char → Nat
  | [] => 0
  | c :: _ => c.toNat

/-- The combined filter predicate: keep a project when the category is
`"all"` or matches, and the type is `"all"` or matches. -/
def filterPred (cat ty : String) (p : Project) : Bool :=
  (decide (cat = ("all")) || p.category == cat) && (decide (ty = ("all")) || p.«type» == ty)

end Portfolio

namespace Portfolio

lemma isDig_bounds {c : Char} (h : isDig c = true) : 48 ≤ c.toNat ∧ c.toNat ≤ 57 := by
  simpa [isDig] using h

lemma lowerChar_of_small {c : Char} (h : c.toNat ≤ 57) : lowerChar c = c := by
  unfold lowerChar
  rw [if_neg]
  omega

lemma altMatch_none_of_small {c : Char} (cs : List Char) (hc : c.toNat ≤ 57)
    (name : List Char) (m : Nat) (hne : name ≠ []) (hh : 97 ≤ headToNat name) :
    altMatch (c :: cs) (name, m) = none := by
  cases name with
  | nil => exact absurd rfl hne
  | cons l ls =>
    have hcl : c ≠ l := by
      intro he
      rw [he] at hc
      simp only [headToNat] at hh
      omega
    simp [altMatch, dropPat, hcl]

lemma firstAlt_none_of_small {c : Char} (cs : List Char) (hc : c.toNat ≤ 57) :
    ∀ alts : List (List Char × Nat),
      (∀ alt ∈ alts, alt.1 ≠ [] ∧ 97 ≤ headToNat alt.1) →
      firstAlt (c :: cs) alts = none := by
  intro alts
  induction alts with
  | nil => intro _; rfl
  | cons alt rest ih =>
    intro h
    obtain ⟨h1, h2⟩ := h alt (by simp)
    obtain ⟨name, m⟩ := alt
    simp [firstAlt, altMatch_none_of_small cs hc name m h1 h2,
      ih (fun a ha => h a (by simp [ha]))]

lemma tryMonthYearAt_none_of_small {c : Char} (cs : List Char) (hc : c.toNat ≤ 57) :
    tryMonthYearAt (c :: cs) = none :=
  firstAlt_none_of_small cs hc monthAlts (by decide)

lemma searchMonthYear_none_of_small :
    ∀ cs : List Char, (∀ c ∈ cs, c.toNat ≤ 57) → searchMonthYear cs = none := by
  intro cs
  induction cs with
  | nil => intro _; rfl
  | cons c rest ih =>
    intro h
    simp [searchMonthYear, tryMonthYearAt_none_of_small rest (h c (by simp)),
      ih (fun a ha => h a (by simp [ha]))]

lemma strMk_ne_of_length {l : List Char} {t : String} (h : l.length ≠ t.data.length) :
    String.mk l ≠ t :=
  fun he => h (congrArg (fun s => s.data.length) he)

lemma lazyLoadStep_activated (vw vh : Int) (e : LazyElem) (he : isActivated e = true) :
    lazyLoadStep vw vh e = e := by
  cases e <;> simp [isActivated] at he ⊢ <;> rfl

lemma normalizeFrom_length (n : Nat) (data : List RawProject) :
    (normalizeFrom n data).length = data.length := by
  induction data generalizing n with
  | nil => rfl
  | cons p ps ih => simp [normalizeFrom, ih]

lemma normalizeFrom_getElem? (n i : Nat) (data : List RawProject) :
    (normalizeFrom n data)[i]? = Option.map (normalizeProject (n + i)) data[i]? := by
  induction data generalizing n i with
  | nil => simp [normalizeFrom]
  | cons p ps ih =>
    cases i with
    | zero => simp [normalizeFrom]
    | succ j =>
      simp only [normalizeFrom, List.getElem?_cons_succ]
      rw [ih (n + 1) j]
      have hn : n + 1 + j = n + (j + 1) := by omega
      rw [hn]

lemma parseYearMonth_eq_spec (s : String) : parseYearMonth s = parseYearMonthSpec s := by
  unfold parseYearMonth
  split
  · rename (s = ("") ∨ s = ("Unknown Date")) => h
    rcases h with h | h <;> subst h <;> decide
  · rfl

lemma filterProjects_eq_filter (projects : List Project) (cat ty : String) :
    filterProjects projects cat ty = List.filter (filterPred cat ty) projects := by
  by_cases hcat : cat = ("all") <;> by_cases hty : ty = ("all")
  · rw [hcat, hty]
    have h1 : filterProjects projects ("all") ("all") = projects := by
      simp [filterProjects]
    rw [h1]
    symm
    calc List.filter (filterPred ("all") ("all")) projects
        = List.filter (fun _ => true) projects :=
          List.filter_congr (fun a _ => by simp [filterPred])
      _ = projects := List.filter_true _
  · rw [hcat]
    have h1 : filterProjects projects ("all") ty =
        List.filter (fun p => p.«type» == ty) projects := by
      simp [filterProjects, hty]
    rw [h1]
    exact List.filter_congr (fun a _ => by simp [filterPred, hty])
  · rw [hty]
    have h1 : filterProjects projects cat ("all") =
        List.filter (fun p => p.category == cat) projects := by
      simp [filterProjects, hcat]
    rw [h1]
    exact List.filter_congr (fun a _ => by simp [filterPred, hcat])
  · have h1 : filterProjects projects cat ty =
        List.filter (fun p => p.«type» == ty)
          (List.filter (fun p => p.category == cat) projects) := by
      simp [filterProjects, hcat, hty]
    rw [h1, List.filter_filter]
    exact List.filter_congr (fun a _ => by simp [filterPred, hcat, hty, Bool.and_comm])

/-- Claim C1: the date parser maps `"August 2024"`, `"2024-08"`,
`"2024"` and `"Unknown Date"` to the sort keys 202408, 202408, 202400
and 0. -/
theorem parseYearMonth_example_keys :
    (parseYearMonth ("August 2024")).sortKey = 202408 ∧
    (parseYearMonth ("2024-08")).sortKey = 202408 ∧
    (parseYearMonth ("2024")).sortKey = 202400 ∧
    (parseYearMonth ("Unknown Date")).sortKey = 0 := by
  decide

/-- Claim C2: `parseYearMonth` is a total function on strings (the
embedding returns a `SortDate` for every input) and agrees everywhere
with the spec's cascade `parseYearMonthSpec`, which tries the
month-name match, then the numeric year-month match, then the bare
four-digit-year match, and falls back to sort key 0 with default year
2000 when none of the three matches. -/
theorem parseYearMonth_format_order (s : String) :
    parseYearMonth s = parseYearMonthSpec s :=
  parseYearMonth_eq_spec s

/-- Claim C3 (counterexample): for the input `"2024"` the parser
returns year 2024 and month 1 but sort key 202400, so the sort key is
not `year * 100 + month`. -/
theorem parseYearMonth_sortKey_formula_counterexample :
    (parseYearMonth ("2024")).sortKey ≠
      (parseYearMonth ("2024")).year * 100 + (parseYearMonth ("2024")).month := by
  decide

/-- Claim C3 (amended): the sort key equals `year * 100 + month` for
the month-name and numeric year-month formats; on a bare-year match it
is `year * 100` with the month field left at its default 1; and on no
match it is 0 with year 2000 and month 1. -/
theorem parseYearMonth_sortKey_cases (s : String) :
    (parseYearMonth s).sortKey = (parseYearMonth s).year * 100 + (parseYearMonth s).month ∨
    ((parseYearMonth s).month = 1 ∧
      (parseYearMonth s).sortKey = (parseYearMonth s).year * 100) ∨
    ((parseYearMonth s).year = 2000 ∧ (parseYearMonth s).month = 1 ∧
      (parseYearMonth s).sortKey = 0) := by
  rw [parseYearMonth_eq_spec]
  unfold parseYearMonthSpec
  cases hm : searchMonthYear (toLowerStr s) with
  | some p => obtain ⟨m, y⟩ := p; simp
  | none =>
    cases hd : searchDash (toLowerStr s) with
    | some p => obtain ⟨y, m⟩ := p; simp
    | none =>
      cases hy : searchYear (toLowerStr s) with
      | some y => simp
      | none => simp

/-- Claim C4: filtering is a pure function of the full list and the two
filter values; a project is kept exactly when each filter is `"all"` or
matches the corresponding field; the result is a sublist (order
preserving subset) of the input; with both filters `"all"` the result
is the full list unchanged; and re-filtering an already filtered list
with the same state changes nothing. -/
theorem filterProjects_characterization (projects : List Project) (cat ty : String) :
    (∀ p, p ∈ filterProjects projects cat ty ↔
      p ∈ projects ∧ (cat = ("all") ∨ p.category = cat) ∧ (ty = ("all") ∨ p.«type» = ty)) ∧
    (filterProjects projects cat ty).Sublist projects ∧
    filterProjects projects ("all") ("all") = projects ∧
    filterProjects (filterProjects projects cat ty) cat ty = filterProjects projects cat ty := by
  refine ⟨?_, ?_, ?_, ?_⟩
  · intro p
    rw [filterProjects_eq_filter]
    simp [filterPred, List.mem_filter, and_assoc]
  · rw [filterProjects_eq_filter]
    exact List.filter_sublist _
  · simp [filterProjects]
  · rw [filterProjects_eq_filter projects, filterProjects_eq_filter, List.filter_filter]
    exact List.filter_congr (fun a _ => Bool.and_self _)

/-- Claim C5 (counterexample): loading a project dated `"1999-12"`
together with one dated `"Unknown Date"` yields the order
`[Unknown, 1999-12]` (the comparator sorts the unknown date as year
2000), whose sort keys `[0, 199912]` are not descending. -/
theorem load_sorted_sortKey_counterexample :
    ¬ (loadProjectsPure [rawOld, rawUnknown]).Pairwise
        (fun a b => b.sortDate.sortKey ≤ a.sortDate.sortKey) := by
  decide

/-- Claim C5 (amended): after a successful load the project list is
sorted descending lexicographically by the parsed `(year, month)` pair,
the fields the sort comparator actually reads; this coincides with
descending sort-key order exactly on dates where the sort key is
`year * 100 + month`, but not on fallback dates (sort key 0, year
2000) or bare-year dates.  Ties are left unspecified. -/
theorem load_sorted_year_month_desc (data : List RawProject) :
    (loadProjectsPure data).Sorted dateGE :=
  List.sorted_insertionSort dateGE (normalizeProjects data)

/-- Claim C6 (counterexample): opening the modal on a project whose
media list is empty sets the media index to 0, which does not lie in
the integer interval `[0, media.length - 1] = [0, -1]`. -/
theorem media_index_interval_counterexample :
    (openProjectModal emptyMediaProject initState).currentProject = some emptyMediaProject ∧
    ¬ MediaIdxInterval (openProjectModal emptyMediaProject initState) := by
  refine ⟨rfl, ?_⟩
  intro h
  have h2 := h emptyMediaProject rfl
  simp [openProjectModal, emptyMediaProject] at h2

/-- Claim C6 (amended): when a project is open, the media index stays
at most `media.length - 1` whenever the media list is non-empty, and
stays 0 when the media list is empty; this invariant is preserved by
opening the modal, `nextMedia`, `prevMedia` and closing the modal. -/
theorem media_index_inv_preserved (s : ViewState) (project : Project)
    (h : MediaIdxInv s) :
    MediaIdxInv (openProjectModal project s) ∧ MediaIdxInv (nextMedia s) ∧
    MediaIdxInv (prevMedia s) ∧ MediaIdxInv (closeModal s) := by
  refine ⟨?_, ?_, ?_, ?_⟩
  · intro p hp
    have hp' : project = p := Option.some.inj hp
    subst hp'
    exact ⟨fun _ => rfl, fun _ => Nat.zero_le _⟩
  · unfold nextMedia
    split
    · next q heq =>
      split
      · next hlt =>
        intro p hp
        have hp' : s.currentProject = some p := hp
        rw [heq] at hp'
        have hqp : q = p := Option.some.inj hp'
        subst hqp
        constructor
        · intro h0
          exact absurd hlt (by omega)
        · intro hpos
          show s.currentMediaIndex + 1 ≤ q.media.length - 1
          omega
      · next => exact h
    · next => exact h
  · unfold prevMedia
    by_cases hpos : 0 < s.currentMediaIndex
    · rw [if_pos hpos]
      intro p hp
      have hp' : s.currentProject = some p := hp
      obtain ⟨h0, h1⟩ := h p hp'
      constructor
      · intro hl
        exact absurd (h0 hl) (by omega)
      · intro hl
        show s.currentMediaIndex - 1 ≤ p.media.length - 1
        exact Nat.le_trans (Nat.sub_le _ _) (h1 hl)
    · rw [if_neg hpos]
      exact h
  · intro p hp
    simp [closeModal] at hp

/-- Witness for the amended C6 invariant preservation, at the initial
state and the empty-media project. -/
theorem media_index_inv_preserved_witness :
    MediaIdxInv initState ∧
      (MediaIdxInv (openProjectModal emptyMediaProject initState) ∧
        MediaIdxInv (nextMedia initState) ∧ MediaIdxInv (prevMedia initState) ∧
        MediaIdxInv (closeModal initState)) :=
  ⟨fun p hp => absurd hp (by simp [initState]),
   media_index_inv_preserved initState emptyMediaProject
     (fun p hp => absurd hp (by simp [initState]))⟩

/-- Claim C7: normalization is total and defaulting: the output list
has the same length as the fetched array, each output entry is the
field-by-field defaulting of the corresponding input entry, and a
missing (or falsy) field is replaced by its documented default
(`id` = index + 1, `title` = "Untitled Project",
`category` = "uncategorized", `type` = "Other", `date` = "Unknown
Date", empty lists for tools, skills, links and media, and
`description` = "No description available."). -/
theorem normalization_total_defaults (data : List RawProject) :
    (normalizeProjects data).length = data.length ∧
    (∀ i, (normalizeProjects data)[i]? = Option.map (normalizeProject i) data[i]?) ∧
    (∀ i raw, raw.id = none → (normalizeProject i raw).id = i + 1) ∧
    (∀ i raw, raw.title = none → (normalizeProject i raw).title = ("Untitled Project")) ∧
    (∀ i raw, raw.category = none → (normalizeProject i raw).category = ("uncategorized")) ∧
    (∀ i raw, raw.«type» = none → (normalizeProject i raw).«type» = ("Other")) ∧
    (∀ i raw, raw.date = none → (normalizeProject i raw).date = ("Unknown Date")) ∧
    (∀ i raw, raw.tools = none → (normalizeProject i raw).tools = []) ∧
    (∀ i raw, raw.skills = none → (normalizeProject i raw).skills = []) ∧
    (∀ i raw, raw.description = none →
      (normalizeProject i raw).description = ("No description available.")) ∧
    (∀ i raw, raw.links = none → (normalizeProject i raw).links = []) ∧
    (∀ i raw, raw.media = none → (normalizeProject i raw).media = []) := by
  refine ⟨normalizeFrom_length 0 data, ?_, ?_, ?_, ?_, ?_, ?_, ?_, ?_, ?_, ?_, ?_⟩
  · intro i
    simpa using normalizeFrom_getElem? 0 i data
  all_goals intro i raw hraw
  all_goals simp [normalizeProject, hraw]

/-- Witness for C7's conditional field defaults, at the all-missing raw
project. -/
theorem normalization_total_defaults_witness :
    rawAllNone.title = none ∧ (normalizeProject 0 rawAllNone).title = ("Untitled Project") :=
  ⟨rfl, (normalization_total_defaults []).2.2.2.1 0 rawAllNone rfl⟩

/-- Claim C8 (counterexample): a lazy image whose box `[-1, 10] × [0, 10]`
overlaps the viewport `[0, 100] × [0, 100]` (it intersects it, sticking
one pixel above the top edge) is left unactivated by the handler,
because `isInViewport` requires full containment. -/
theorem intersect_activation_counterexample :
    rectIntersectsViewport 100 100 ⟨-1, 0, 10, 10⟩ ∧
    lazyLoadHandler 100 100 [offscreenElem] = [offscreenElem] ∧
    isActivated offscreenElem = false := by
  refine ⟨⟨by decide, by decide, by decide, by decide⟩, by decide, by decide⟩

/-- Claim C8 (amended): on render and on every scroll event, every lazy
element with a non-empty `data-src` whose bounding box is fully
contained in the viewport (the `isInViewport` test) is activated: a
lazy image becomes an image with its `src` populated from `data-src`,
and a placeholder is replaced by a constructed iframe. -/
theorem contained_activation (vw vh : Int) (es : List LazyElem) (i : Nat)
    (ds : String) (r : Rect) (hds : ds ≠ ("")) (hv : isInViewport vw vh r = true) :
    (es[i]? = some (.lazyImage ds r) →
      (lazyLoadHandler vw vh es)[i]? = some (.image ds r)) ∧
    (es[i]? = some (.lazyFrame ds r) →
      (lazyLoadHandler vw vh es)[i]? = some (.frame ds r)) := by
  constructor <;> intro hi <;>
    simp [lazyLoadHandler, List.getElem?_map, hi, lazyLoadStep, hv, loadImage, loadIframe, hds]

/-- Witness for the amended C8 activation, at a fully visible lazy
image. -/
theorem contained_activation_witness :
    (("a.png") ≠ ("")) ∧ isInViewport 100 100 ⟨0, 0, 10, 10⟩ = true ∧
    (lazyLoadHandler 100 100 [.lazyImage ("a.png") ⟨0, 0, 10, 10⟩])[0]? =
      some (.image ("a.png") ⟨0, 0, 10, 10⟩) :=
  ⟨by decide, by decide,
   (contained_activation 100 100 [.lazyImage ("a.png") ⟨0, 0, 10, 10⟩] 0 ("a.png")
      ⟨0, 0, 10, 10⟩ (by decide) (by decide)).1 rfl⟩

/-- Claim C9: activation is one-way: an already activated element (an
image with populated `src` or a constructed iframe) is left exactly as
it is by every subsequent run of the lazy-load handler, over any
sequence of viewport sizes. -/
theorem activation_one_way (vps : List (Int × Int)) (es : List LazyElem) (i : Nat)
    (e : LazyElem) (he : isActivated e = true) (hi : es[i]? = some e) :
    (vps.foldl (fun acc p => lazyLoadHandler p.1 p.2 acc) es)[i]? = some e := by
  induction vps generalizing es with
  | nil => simpa using hi
  | cons p rest ih =>
    rw [List.foldl_cons]
    apply ih
    simp [lazyLoadHandler, List.getElem?_map, hi, lazyLoadStep_activated p.1 p.2 e he]

/-- Witness for C9, at an activated image and one handler run. -/
theorem activation_one_way_witness :
    isActivated (.image ("a.png") ⟨0, 0, 10, 10⟩) = true ∧
    (([((100 : Int), (100 : Int))]).foldl (fun acc p => lazyLoadHandler p.1 p.2 acc)
        [.image ("a.png") ⟨0, 0, 10, 10⟩])[0]? =
      some (.image ("a.png") ⟨0, 0, 10, 10⟩) :=
  ⟨rfl,
   activation_one_way [((100 : Int), (100 : Int))] [.image ("a.png") ⟨0, 0, 10, 10⟩] 0
     (.image ("a.png") ⟨0, 0, 10, 10⟩) rfl rfl⟩

/-- Claim C10: the numeric year-month format does not validate the
month: for any four digit characters forming the year and any one or
two digit characters forming the month (including 0 or values above
12), separated by `-` or `/`, the parser returns exactly those numbers
and sort key `year * 100 + month`; in particular `"2024-99"` yields
sort key 202499, which is larger than the key of every real month of
2024. -/
theorem dash_month_unvalidated (a b c d e f sep : Char)
    (ha : isDig a = true) (hb : isDig b = true) (hc : isDig c = true)
    (hd : isDig d = true) (he : isDig e = true) (hf : isDig f = true)
    (hsep : sep = '-' ∨ sep = '/') :
    parseYearMonth (String.mk [a, b, c, d, sep, e, f]) =
      ⟨digitVal a * 1000 + digitVal b * 100 + digitVal c * 10 + digitVal d,
       digitVal e * 10 + digitVal f,
       (digitVal a * 1000 + digitVal b * 100 + digitVal c * 10 + digitVal d) * 100 +
         (digitVal e * 10 + digitVal f)⟩ ∧
    parseYearMonth (String.mk [a, b, c, d, sep, e]) =
      ⟨digitVal a * 1000 + digitVal b * 100 + digitVal c * 10 + digitVal d,
       digitVal e,
       (digitVal a * 1000 + digitVal b * 100 + digitVal c * 10 + digitVal d) * 100 +
         digitVal e⟩ ∧
    (parseYearMonth ("2024-99")).sortKey = 202499 ∧
    (∀ m : Nat, m ≤ 12 → 2024 * 100 + m < (parseYearMonth ("2024-99")).sortKey) := by
  have ha57 := (isDig_bounds ha).2
  have hb57 := (isDig_bounds hb).2
  have hc57 := (isDig_bounds hc).2
  have hd57 := (isDig_bounds hd).2
  have he57 := (isDig_bounds he).2
  have hf57 := (isDig_bounds hf).2
  have hsep57 : sep.toNat ≤ 57 := by
    rcases hsep with h | h <;> subst h <;> decide
  have hlow7 : toLowerStr (String.mk [a, b, c, d, sep, e, f]) = [a, b, c, d, sep, e, f] := by
    simp only [toLowerStr, List.map_cons, List.map_nil, lowerChar_of_small ha57,
      lowerChar_of_small hb57, lowerChar_of_small hc57, lowerChar_of_small hd57,
      lowerChar_of_small hsep57, lowerChar_of_small he57, lowerChar_of_small hf57]
  have hlow6 : toLowerStr (String.mk [a, b, c, d, sep, e]) = [a, b, c, d, sep, e] := by
    simp only [toLowerStr, List.map_cons, List.map_nil, lowerChar_of_small ha57,
      lowerChar_of_small hb57, lowerChar_of_small hc57, lowerChar_of_small hd57,
      lowerChar_of_small hsep57, lowerChar_of_small he57]
  have hud : ("Unknown Date").data.length = 12 := rfl
  have hne7 : ¬(String.mk [a, b, c, d, sep, e, f] = ("") ∨
      String.mk [a, b, c, d, sep, e, f] = ("Unknown Date")) := by
    rintro (h | h)
    · exact strMk_ne_of_length (by simp) h
    · exact strMk_ne_of_length (by simp [hud]) h
  have hne6 : ¬(String.mk [a, b, c, d, sep, e] = ("") ∨
      String.mk [a, b, c, d, sep, e] = ("Unknown Date")) := by
    rintro (h | h)
    · exact strMk_ne_of_length (by simp) h
    · exact strMk_ne_of_length (by simp [hud]) h
  have hsmall7 : ∀ ch ∈ [a, b, c, d, sep, e, f], ch.toNat ≤ 57 := by
    intro ch hch
    simp only [List.mem_cons, List.not_mem_nil, or_false] at hch
    rcases hch with rfl | rfl | rfl | rfl | rfl | rfl | rfl
    exacts [ha57, hb57, hc57, hd57, hsep57, he57, hf57]
  have hsmall6 : ∀ ch ∈ [a, b, c, d, sep, e], ch.toNat ≤ 57 := by
    intro ch hch
    simp only [List.mem_cons, List.not_mem_nil, or_false] at hch
    rcases hch with rfl | rfl | rfl | rfl | rfl | rfl
    exacts [ha57, hb57, hc57, hd57, hsep57, he57]
  have hsmy7 := searchMonthYear_none_of_small [a, b, c, d, sep, e, f] hsmall7
  have hsmy6 := searchMonthYear_none_of_small [a, b, c, d, sep, e] hsmall6
  have hsd7 : searchDash [a, b, c, d, sep, e, f] =
      some (digitVal a * 1000 + digitVal b * 100 + digitVal c * 10 + digitVal d,
        digitVal e * 10 + digitVal f) := by
    rcases hsep with hs | hs <;> subst hs <;>
      simp [searchDash, tryDashAt, digits4, digits12, ha, hb, hc, hd, he, hf]
  have hsd6 : searchDash [a, b, c, d, sep, e] =
      some (digitVal a * 1000 + digitVal b * 100 + digitVal c * 10 + digitVal d,
        digitVal e) := by
    rcases hsep with hs | hs <;> subst hs <;>
      simp [searchDash, tryDashAt, digits4, digits12, ha, hb, hc, hd, he]
  refine ⟨?_, ?_, by decide, ?_⟩
  · simp only [parseYearMonth]
    rw [if_neg hne7]
    simp only [hlow7, hsmy7, hsd7]
  · simp only [parseYearMonth]
    rw [if_neg hne6]
    simp only [hlow6, hsmy6, hsd6]
  · intro m hm
    have hkey : (parseYearMonth ("2024-99")).sortKey = 202499 := by decide
    omega

/-- Witness for C10, at the digits of `"2024-99"`. -/
theorem dash_month_unvalidated_witness :
    (isDig '2' = true ∧ isDig '0' = true ∧ isDig '4' = true ∧ isDig '9' = true ∧
      (('-' : Char) = '-' ∨ ('-' : Char) = '/')) ∧
    parseYearMonth (String.mk ['2', '0', '2', '4', '-', '9', '9']) =
      ⟨digitVal '2' * 1000 + digitVal '0' * 100 + digitVal '2' * 10 + digitVal '4',
       digitVal '9' * 10 + digitVal '9',
       (digitVal '2' * 1000 + digitVal '0' * 100 + digitVal '2' * 10 + digitVal '4') * 100 +
         (digitVal '9' * 10 + digitVal '9')⟩ :=
  ⟨⟨by decide, by decide, by decide, by decide, Or.inl rfl⟩,
   (dash_month_unvalidated '2' '0' '2' '4' '9' '9' '-' (by decide) (by decide) (by decide)
      (by decide) (by decide) (by decide) (Or.inl rfl)).1⟩

end Portfolio
